import Mathlib

/- Shallow embedding of src/scripts/ocr_backend.py (PaddleOCR Bridge API).

Modelling conventions:
* Python strings are modelled as List Char; str.lower is List.map
  Char.toLower (ASCII case folding, which covers every character the
  claims mention); "\n".join(xs) is pyJoin nlT xs; s.endswith(t) is
  pyEndsWith s t, spelled exactly as Python computes it (compare the
  final len(t) characters of s with t).
* The uploaded payload is a Request: an optional declared filename plus
  the raw bytes obtained from file.read().
* Engine confidence scores are modelled as Rat: the backend only stores
  and serializes them (float(rec_scores[i]) is a stand-alone conversion,
  no arithmetic is ever performed on a score), so exact rationals are a
  faithful stand-in for Python floats here.  Polygons are modelled as
  List (Int × Int); the numpy tolist conversion on a polygon is the
  identity on the underlying point list.
* The module-level engine handle ocr is Option Engine (None when both
  initialization attempts failed).  Engine.predict is an arbitrary
  function standing for ocr.predict, returning either a raised exception
  (Except.error) or a list of prediction items.
* A prediction item (EngineItem) is either an object exposing a .json
  attribute (EngineItem.obj) -- whose record may be nested under a res
  key (ItemJson.wrapped) or be the json itself (ItemJson.flat), matching
  the source expression item.json.get(res, item.json) -- or a bare list
  of (polygon, (text, score)) pairs as in the legacy engine contract
  (EngineItem.legacy), on which the attribute access item.json raises
  AttributeError.
* dict.get(key, default) on the result record is Option.getD on the
  corresponding Option-valued field (a key that is absent, and a key
  present with value None in the case of page_index, are both none).
* The filesystem is an association list of path/contents pairs: the
  open(path, wb)/write pair is fsWrite, os.path.exists is fsHas,
  os.remove is fsRemove (removal is modelled as succeeding).
* PIL image decoding, the RGB conversion and the BGR channel swap are
  bundled into a single external parameter decode, since no claim under
  verification inspects pixel data; decode can fail (undecodable bytes).
* try/except/finally becomes explicit Except propagation (toHttp maps a
  Python exception to the HTTP 500 response of the except block) plus
  the fsFinally cleanup applied on every exit path.
-/

set_option autoImplicit false

/- Python str, bytes. -/
abbrev Text : Type := List Char
abbrev Bytes : Type := List Nat

/- A detected bounding polygon: an ordered list of 2-D points. -/
abbrev Polygon : Type := List (Int × Int)

/- Message text of a raised Python exception (what str(e) yields). -/
abbrev PyErr : Type := Text

/- The one-character separator string "\n". -/
def nlT : Text := ['\n']

/- Python "sep".join(xs): empty for [], no separator around a single
element, separator between consecutive elements otherwise. -/
def pyJoin (sep : Text) : List Text → Text
  | [] => []
  | [x] => x
  | x :: y :: rest => x ++ sep ++ pyJoin sep (y :: rest)

/- Python s.lower(), restricted to ASCII case folding. -/
def pyLower (s : Text) : Text := s.map Char.toLower

/- Python s.endswith(suffix): the last len(suffix) characters equal it. -/
def pyEndsWith (s suffix : Text) : Prop :=
  s.drop (s.length - suffix.length) = suffix

instance instDecPyEndsWith (s suffix : Text) : Decidable (pyEndsWith s suffix) := by
  unfold pyEndsWith; infer_instance

/- Python (x or default) for an optional string: None and the empty
string are falsy and select the default. -/
def pyOr (x : Option Text) (dflt : Text) : Text :=
  match x with
  | none => dflt
  | some s => if s = [] then dflt else s

/- One normalized recognized line, as appended to raw_results
(ocr_backend.py lines 95-100). -/
structure RawLine where
  text : Text
  confidence : Rat
  box : Polygon
  page : Int
  deriving DecidableEq

/- One per-page summary, as appended to pages (lines 102-106). -/
structure PageSummary where
  page_number : Int
  text : Text
  line_count : Nat
  deriving DecidableEq

/- The JSON body returned on success (lines 110-116). -/
structure OcrResponse where
  text : Text
  results : List RawLine
  pages : List PageSummary
  page_count : Nat
  engine : Text
  deriving DecidableEq

/- An HTTPException: status code and detail message. -/
structure HttpError where
  status : Nat
  detail : Text
  deriving DecidableEq

/- The result record of one prediction item, with the four keys the
backend reads via .get (lines 78-81).  A missing key is none; for
page_index a key present with value None is none as well. -/
structure ResDict where
  rec_texts : Option (List Text)
  rec_scores : Option (List Rat)
  dt_polys : Option (List Polygon)
  page_index : Option Int
  deriving DecidableEq

/- The .json attribute of a prediction item: the record may sit under a
res key or be the whole json object (line 76). -/
inductive ItemJson where
  | wrapped (res : ResDict)
  | flat (res : ResDict)
  deriving DecidableEq

/- item.json.get(res, item.json), line 76. -/
def ItemJson.getRes : ItemJson → ResDict
  | .wrapped r => r
  | .flat r => r

/- One element of the engine prediction sequence: either an OCRResult
object exposing .json (current contract), or a bare list of
(polygon, (text, score)) line entries (one page of the legacy
Contract A shape). -/
inductive EngineItem where
  | obj (j : ItemJson)
  | legacy (entries : List (Polygon × (Text × Rat)))
  deriving DecidableEq

/- Message of the AttributeError raised by item.json when item is a
bare list. -/
def attrErrMsg : PyErr := ("AttributeError: list object has no attribute json").toList

/- The attribute access item.json (line 76): raises on a bare list. -/
def EngineItem.jsonOf : EngineItem → Except PyErr ItemJson
  | .obj j => Except.ok j
  | .legacy _ => Except.error attrErrMsg

/- res.get(rec_texts, []) and friends, lines 78-80. -/
def recTextsOf (r : ResDict) : List Text := r.rec_texts.getD []

def recScoresOf (r : ResDict) : List Rat := r.rec_scores.getD []

def dtPolysOf (r : ResDict) : List Polygon := r.dt_polys.getD []

/- The three accumulators of the result loop (lines 70-72). -/
structure LoopState where
  extracted : List Text
  results : List RawLine
  pages : List PageSummary
  deriving DecidableEq

def initState : LoopState := ⟨[], [], []⟩

/- List.map with the element index passed to the function, starting at
n (the enumerate of the inner loop, line 85). -/
def enumMap {α β : Type} (f : Nat → α → β) : Nat → List α → List β
  | _, [] => []
  | n, a :: as => f n a :: enumMap f (n + 1) as

/- page_num = (page_index if page_index is not None else len(pages)) + 1,
line 82, with k standing for len(pages) at that moment. -/
def pageNumAt (k : Nat) (r : ResDict) : Int :=
  (match r.page_index with
   | some i => i
   | none => (k : Int)) + 1

/- The raw_results records the inner loop (lines 85-100) appends for one
item: text i, rec_scores[i] if i < len(rec_scores) else 0.0,
dt_polys[i] if i < len(dt_polys) else [], and the page number. -/
def mkLines (p : Int) (r : ResDict) : List RawLine :=
  enumMap (fun i t => ⟨t, (recScoresOf r).getD i 0, (dtPolysOf r).getD i [], p⟩)
    0 (recTextsOf r)

/- The pages record appended after the inner loop (lines 102-106):
page_lines collects exactly str(text) for each text of rec_texts, which
on strings is the identity. -/
def mkSummary (p : Int) (r : ResDict) : PageSummary :=
  ⟨p, pyJoin nlT (recTextsOf r), (recTextsOf r).length⟩

/- One iteration of the outer result loop (lines 74-106); the page
number of line 82 uses len(pages) as accumulated so far. -/
def processItem (st : LoopState) (it : EngineItem) : Except PyErr LoopState :=
  match it.jsonOf with
  | Except.error e => Except.error e
  | Except.ok j =>
    Except.ok ⟨st.extracted ++ recTextsOf j.getRes,
               st.results ++ mkLines (pageNumAt st.pages.length j.getRes) j.getRes,
               st.pages ++ [mkSummary (pageNumAt st.pages.length j.getRes) j.getRes]⟩

/- The whole result loop over the prediction sequence. -/
def processPrediction (st : LoopState) : List EngineItem → Except PyErr LoopState
  | [] => Except.ok st
  | it :: rest =>
    match processItem st it with
    | Except.error e => Except.error e
    | Except.ok st2 => processPrediction st2 rest

/- The success JSON body (lines 110-116): note that text joins
extracted_text, the flat list of all line texts. -/
def buildResponse (st : LoopState) : OcrResponse :=
  ⟨pyJoin nlT st.extracted, st.results, st.pages, st.pages.length,
   ("paddle").toList⟩

/- Decoded pixel data after RGB conversion and BGR swap; no claim
inspects it, so raw bytes suffice. -/
abbrev Img : Type := Bytes

/- input_data: a temporary file path or a decoded pixel buffer. -/
inductive PreparedInput where
  | path (p : Text)
  | image (img : Img)

/- The external recognition engine: ocr.predict (line 68), which may
raise or return the prediction item list. -/
structure Engine where
  predict : PreparedInput → Except PyErr (List EngineItem)

/- The filesystem: an association list of path/contents pairs with at
most one entry per path. -/
abbrev FS : Type := List (Text × Bytes)

def fsRemove (fs : FS) (p : Text) : FS :=
  fs.filter fun e => !(decide (e.1 = p))

def fsHas (fs : FS) (p : Text) : Bool :=
  fs.any fun e => decide (e.1 = p)

/- open(p, wb) followed by f.write(contents): create or truncate. -/
def fsWrite (fs : FS) (p : Text) (c : Bytes) : FS :=
  (p, c) :: fsRemove fs p

/- The multipart upload: declared filename (None when absent) and the
bytes read from it. -/
structure Request where
  filename : Option Text
  contents : Bytes

/- filename = (file.filename or "unknown.pdf").lower(), line 54. -/
def effectiveFilename (fn : Option Text) : Text :=
  pyLower (pyOr fn (("unknown.pdf").toList))

/- The dispatch condition filename.endswith(.pdf), line 56. -/
def isPdfUpload (fn : Option Text) : Prop :=
  pyEndsWith (effectiveFilename fn) ((".pdf").toList)

instance instDecIsPdfUpload (fn : Option Text) : Decidable (isPdfUpload fn) := by
  unfold isPdfUpload; infer_instance

/- temp_path = f"temp_{file.filename}", line 57: the f-string formats
the original optional filename, rendering None as the text None. -/
def fstrOpt : Option Text → Text
  | none => ("None").toList
  | some s => s

def tempName (fn : Option Text) : Text := ("temp_").toList ++ fstrOpt fn

/- Lines 54-65: classify the upload, then produce the engine input, the
temp_path variable value and the filesystem after the branch.  The image
branch may raise inside Image.open/convert (undecodable bytes). -/
def prepareInput (decode : Bytes → Except PyErr Img) (req : Request) (fs : FS) :
    Except PyErr PreparedInput × Option Text × FS :=
  if isPdfUpload req.filename then
    (Except.ok (PreparedInput.path (tempName req.filename)),
     some (tempName req.filename),
     fsWrite fs (tempName req.filename) req.contents)
  else
    match decode req.contents with
    | Except.ok img => (Except.ok (PreparedInput.image img), none, fs)
    | Except.error e => (Except.error e, none, fs)

/- The except block, line 121: any exception of the try block becomes
HTTPException(500, str(e)). -/
def toHttp : Except PyErr OcrResponse → Except HttpError OcrResponse
  | Except.ok r => Except.ok r
  | Except.error m => Except.error ⟨500, m⟩

/- The finally block, lines 122-124: if temp_path and
os.path.exists(temp_path): os.remove(temp_path).  temp_path, when set,
is a nonempty string, so its truthiness is its being set. -/
def fsFinally (tp : Option Text) (fs : FS) : FS :=
  match tp with
  | none => fs
  | some p => if fsHas fs p then fsRemove fs p else fs

/- Message of the 503 raised when the engine handle is None, line 49. -/
def svcUnavailableMsg : Text := ("PaddleOCR failed to initialize").toList

/- The POST /ocr handler, lines 46-124, as a function from the engine
handle, the external decoder, the request and the filesystem to the
HTTP outcome and the filesystem after the request. -/
def perform_ocr (ocrH : Option Engine) (decode : Bytes → Except PyErr Img)
    (req : Request) (fs : FS) : Except HttpError OcrResponse × FS :=
  match ocrH with
  | none => (Except.error ⟨503, svcUnavailableMsg⟩, fs)
  | some eng =>
    match prepareInput decode req fs with
    | (Except.error e, tp, fs1) => (toHttp (Except.error e), fsFinally tp fs1)
    | (Except.ok input, tp, fs1) =>
      let body : Except PyErr OcrResponse :=
        match eng.predict input with
        | Except.error e => Except.error e
        | Except.ok pred =>
          match processPrediction initState pred with
          | Except.error e => Except.error e
          | Except.ok st => Except.ok (buildResponse st)
      (toHttp body, fsFinally tp fs1)

/- Closed form of the result loop on a prediction whose items all carry
.json: per item at ordinal position k, the texts, lines and summary it
contributes. -/
def emitAll : Nat → List ResDict → List Text × List RawLine × List PageSummary
  | _, [] => ([], [], [])
  | k, r :: rest =>
    (recTextsOf r ++ (emitAll (k + 1) rest).1,
     mkLines (pageNumAt k r) r ++ (emitAll (k + 1) rest).2.1,
     mkSummary (pageNumAt k r) r :: (emitAll (k + 1) rest).2.2)

/- The result records of a prediction sequence, when every item is an
object exposing .json (none as soon as one is a legacy bare list). -/
def objResAll : List EngineItem → Option (List ResDict)
  | [] => some []
  | EngineItem.obj j :: rest => (objResAll rest).map (fun rs => j.getRes :: rs)
  | EngineItem.legacy _ :: _ => none

/- The response determined by the result records of the prediction. -/
def respOf (rs : List ResDict) : OcrResponse :=
  ⟨pyJoin nlT (emitAll 0 rs).1, (emitAll 0 rs).2.1, (emitAll 0 rs).2.2,
   (emitAll 0 rs).2.2.length, ("paddle").toList⟩

/- The page number the specification assigns to the page-result at
ordinal position k onward: declared index + 1 when supplied, ordinal
position + 1 otherwise. -/
def pageNums : Nat → List ResDict → List Int
  | _, [] => []
  | k, r :: rest => ((r.page_index.getD (k : Int)) + 1) :: pageNums (k + 1) rest

/- The same rule applied to every line of each page, flattened. -/
def pageFlat : Nat → List ResDict → List Int
  | _, [] => []
  | k, r :: rest =>
    List.replicate (recTextsOf r).length ((r.page_index.getD (k : Int)) + 1) ++
      pageFlat (k + 1) rest

/- The declared page index of a prediction item, when it is an object. -/
def itemPageIndex : EngineItem → Option Int
  | .obj j => j.getRes.page_index
  | .legacy _ => none

/- The page_number values of the response are 1, 2, ..., page count, in
emission order. -/
def contiguousFrom1 (resp : OcrResponse) : Prop :=
  resp.pages.map PageSummary.page_number =
    (List.range resp.pages.length).map (fun i => Int.ofNat i + 1)

instance instDecContiguousFrom1 (resp : OcrResponse) : Decidable (contiguousFrom1 resp) := by
  unfold contiguousFrom1; infer_instance

/- line_count of a page summary equals the number of results records
carrying its page_number. -/
def pageLineCountAgrees (resp : OcrResponse) (pg : PageSummary) : Prop :=
  resp.results.countP (fun l => decide (l.page = pg.page_number)) = pg.line_count

instance instDecPageLineCountAgrees (resp : OcrResponse) (pg : PageSummary) :
    Decidable (pageLineCountAgrees resp pg) := by
  unfold pageLineCountAgrees; infer_instance

/- A decoder that always fails (its value never matters below: it is
only ever supplied to runs taking the document path). -/
def decNever : Bytes → Except PyErr Img :=
  fun _ => Except.error (("cannot identify image file").toList)

/- A concrete PDF upload. -/
def reqPdfC : Request := ⟨some (("d.pdf").toList), [37]⟩

/- Concrete result records used by the counterexamples and witnesses. -/
def rdA : ResDict := ⟨some [['a']], some [1], some [], none⟩

def rdEmpty : ResDict := ⟨some [], some [], some [], none⟩

def rdIdx1 : ResDict := ⟨some [['a']], some [1], some [], some 1⟩

def rdB : ResDict := ⟨some [['b']], some [1], some [], none⟩

def rdIdxOnly : ResDict := ⟨some [], none, none, some 1⟩

def rdW1 : ResDict := ⟨some [['h']], some [1], some [], none⟩

def rdW2 : ResDict := ⟨some [['i']], some [1], some [], none⟩

def rdIdx4 : ResDict := ⟨some [['x']], some [1], some [], some 4⟩

def rdC8 : ResDict := ⟨some [['z']], some [], none, none⟩

/- Engines returning fixed predictions. -/
def engC1 : Engine := ⟨fun _ => Except.ok [EngineItem.obj (ItemJson.flat rdA), EngineItem.obj (ItemJson.flat rdEmpty)]⟩

def engC3 : Engine := ⟨fun _ => Except.ok [EngineItem.obj (ItemJson.flat rdIdx1), EngineItem.obj (ItemJson.flat rdB)]⟩

def engC4 : Engine := ⟨fun _ => Except.ok [EngineItem.obj (ItemJson.flat rdIdxOnly)]⟩

def predItemsW : List EngineItem := [EngineItem.obj (ItemJson.flat rdW1), EngineItem.obj (ItemJson.flat rdW2)]

def engW : Engine := ⟨fun _ => Except.ok predItemsW⟩

/- The responses those engines make perform_ocr return on reqPdfC. -/
def respC1 : OcrResponse :=
  ⟨['a'], [⟨['a'], 1, [], 1⟩], [⟨1, ['a'], 1⟩, ⟨2, [], 0⟩], 2, ("paddle").toList⟩

def respC3 : OcrResponse :=
  ⟨['a', '\n', 'b'], [⟨['a'], 1, [], 2⟩, ⟨['b'], 1, [], 2⟩],
   [⟨2, ['a'], 1⟩, ⟨2, ['b'], 1⟩], 2, ("paddle").toList⟩

def pgC3 : PageSummary := ⟨2, ['a'], 1⟩

def respC4 : OcrResponse := ⟨[], [], [⟨2, [], 0⟩], 1, ("paddle").toList⟩

def respW : OcrResponse :=
  ⟨['h', '\n', 'i'], [⟨['h'], 1, [], 1⟩, ⟨['i'], 1, [], 2⟩],
   [⟨1, ['h'], 1⟩, ⟨2, ['i'], 1⟩], 2, ("paddle").toList⟩

def pgW : PageSummary := ⟨1, ['h'], 1⟩

/- A mixed prediction (declared index on the first item only) for the
page numbering witness. -/
def predC7 : List EngineItem := [EngineItem.obj (ItemJson.flat rdIdx4), EngineItem.obj (ItemJson.flat rdW2)]

def rsC7 : List ResDict := [rdIdx4, rdW2]

def stC7 : LoopState :=
  ⟨[['x'], ['i']], [⟨['x'], 1, [], 5⟩, ⟨['i'], 1, [], 2⟩],
   [⟨5, ['x'], 1⟩, ⟨2, ['i'], 1⟩]⟩

/- One engine output given in the legacy Contract A shape and the
equivalent output in the current shape: same single page, same single
line text hi, same score, same polygon, same (ordinal) page. -/
def polyC2 : Polygon := [(0, 0), (2, 0), (2, 1), (0, 1)]

def rdC2 : ResDict := ⟨some [['h', 'i']], some [1], some [polyC2], none⟩

def predA2 : List EngineItem := [EngineItem.legacy [(polyC2, (['h', 'i'], 1))]]

def predB2 : List EngineItem := [EngineItem.obj (ItemJson.flat rdC2)]

/- Master characterization: a successful run of the result loop starting
from st appends exactly the emitAll components for the item records. -/
theorem processPrediction_ok_shape : ∀ (pred : List EngineItem) (st st' : LoopState),
    processPrediction st pred = Except.ok st' →
    ∃ rs : List ResDict, objResAll pred = some rs ∧
      st' = ⟨st.extracted ++ (emitAll st.pages.length rs).1,
             st.results ++ (emitAll st.pages.length rs).2.1,
             st.pages ++ (emitAll st.pages.length rs).2.2⟩ := by
  intro pred
  induction pred with
  | nil =>
    intro st st' h
    refine ⟨[], rfl, ?_⟩
    simp only [processPrediction, Except.ok.injEq] at h
    subst h
    simp [emitAll]
  | cons it rest ih =>
    intro st st' h
    cases it with
    | legacy es =>
      simp [processPrediction, processItem, EngineItem.jsonOf] at h
    | obj j =>
      simp only [processPrediction, processItem, EngineItem.jsonOf] at h
      obtain ⟨rs, hrs, hst⟩ := ih _ _ h
      refine ⟨j.getRes :: rs, by simp [objResAll, hrs], ?_⟩
      rw [hst]
      simp [emitAll, List.length_append, List.append_assoc]

/- A successful POST /ocr run: the engine was initialized, predict
returned a prediction whose items all expose .json, and the body is
exactly the response determined by their result records. -/
theorem perform_ocr_ok_shape (eng : Engine) (decode : Bytes → Except PyErr Img)
    (req : Request) (fs : FS) (resp : OcrResponse) (fs' : FS)
    (h : perform_ocr (some eng) decode req fs = (Except.ok resp, fs')) :
    ∃ inp pred rs, eng.predict inp = Except.ok pred ∧
      objResAll pred = some rs ∧ resp = respOf rs := by
  unfold perform_ocr at h
  rcases hp : prepareInput decode req fs with ⟨exc, tp, fs1⟩
  rw [hp] at h
  cases exc with
  | error e => simp [toHttp] at h
  | ok input =>
    dsimp only at h
    cases hpred : eng.predict input with
    | error e => rw [hpred] at h; simp [toHttp] at h
    | ok pred =>
      rw [hpred] at h
      dsimp only at h
      cases hproc : processPrediction initState pred with
      | error e => rw [hproc] at h; simp [toHttp] at h
      | ok st =>
        rw [hproc] at h
        dsimp only at h
        simp only [toHttp, Prod.mk.injEq, Except.ok.injEq] at h
        obtain ⟨rs, hrs, hst⟩ := processPrediction_ok_shape pred initState st hproc
        refine ⟨input, pred, rs, hpred, hrs, ?_⟩
        rw [← h.1, hst]
        simp [buildResponse, respOf, initState]

theorem fsHas_fsWrite_self (fs : FS) (p : Text) (c : Bytes) :
    fsHas (fsWrite fs p c) p = true := by
  simp [fsHas, fsWrite]

theorem fsRemove_fsWrite_self (fs : FS) (p : Text) (c : Bytes) :
    fsRemove (fsWrite fs p c) p = fsRemove fs p := by
  simp [fsRemove, fsWrite, List.filter_filter]

theorem fsHas_fsRemove_self (fs : FS) (p : Text) :
    fsHas (fsRemove fs p) p = false := by
  induction fs with
  | nil => rfl
  | cons e t ih =>
    by_cases h : e.1 = p
    · simp only [fsRemove, List.filter_cons, h, decide_True, Bool.not_true,
        if_false]
      exact ih
    · simp only [fsRemove, List.filter_cons, h, decide_False, Bool.not_false,
        if_true] at ih ⊢
      simp only [fsHas, List.any_cons, decide_eq_true_eq, h, decide_False,
        Bool.false_or] at ih ⊢
      exact ih

/-- Claim C6: whenever the engine handle was never successfully
initialized (ocr is None), every POST /ocr call returns the 503
ServiceUnavailable response unchanged-filesystem, for every uploaded
payload and before any engine or decoding work: the result is a
constant independent of the request. -/
theorem C6_uninitialized_503 (decode : Bytes → Except PyErr Img) (req : Request) (fs : FS) :
    perform_ocr none decode req fs = (Except.error ⟨503, svcUnavailableMsg⟩, fs) := rfl

/-- Claim C5: the filesystem after any POST /ocr call equals the initial
filesystem with the temporary path of the request removed when the call
created a temporary file (engine initialized and document path taken),
and is the untouched initial filesystem otherwise; in particular the
temporary artifact named for the request is never present afterwards
(second conjunct), on success and on every failure path alike (the
engine, decoder and prediction are universally quantified, covering
decode errors, engine exceptions and result-shape errors). -/
theorem C5_temp_cleanup (ocrH : Option Engine) (decode : Bytes → Except PyErr Img)
    (req : Request) (fs : FS) :
    (perform_ocr ocrH decode req fs).2 =
      (if ocrH.isSome = true ∧ isPdfUpload req.filename
       then fsRemove fs (tempName req.filename) else fs) ∧
    fsHas (fsRemove fs (tempName req.filename)) (tempName req.filename) = false := by
  refine ⟨?_, fsHas_fsRemove_self fs (tempName req.filename)⟩
  cases ocrH with
  | none => simp [perform_ocr]
  | some eng =>
    by_cases hpdf : isPdfUpload req.filename
    · simp [perform_ocr, prepareInput, hpdf, fsFinally, fsHas_fsWrite_self,
        fsRemove_fsWrite_self]
    · cases hdec : decode req.contents with
      | ok img => simp [perform_ocr, prepareInput, hpdf, hdec, fsFinally]
      | error e => simp [perform_ocr, prepareInput, hpdf, hdec, fsFinally]

theorem processPrediction_cons_obj (st : LoopState) (j : ItemJson) (rest : List EngineItem) :
    processPrediction st (EngineItem.obj j :: rest) =
      processPrediction
        ⟨st.extracted ++ recTextsOf j.getRes,
         st.results ++ mkLines (pageNumAt st.pages.length j.getRes) j.getRes,
         st.pages ++ [mkSummary (pageNumAt st.pages.length j.getRes) j.getRes]⟩
        rest := rfl

/-- Claim C2, amended: the two result shapes the adapter actually
detects are the json object with the record nested under a res key and
the json object that is the record itself (item.json.get(res,
item.json)); runs of the result loop on two predictions that carry the
same records, wrapped either way item by item, are identical.  (The
legacy Contract A shape of bare nested lists is not supported; see the
counterexample.) -/
theorem C2_amended_shape_equivalence :
    ∀ (l : List (Bool × ResDict)) (st : LoopState),
      processPrediction st
        (l.map fun pr => EngineItem.obj
          (cond pr.1 (ItemJson.wrapped pr.2) (ItemJson.flat pr.2))) =
      processPrediction st (l.map fun pr => EngineItem.obj (ItemJson.flat pr.2)) := by
  intro l
  induction l with
  | nil => intro st; rfl
  | cons pr rest ih =>
    intro st
    cases pr with
    | mk b r => cases b <;> exact ih _

/-- Claim C2, counterexample: an engine output in the legacy Contract A
shape (one page given as a bare list with one line entry) makes the
result loop raise AttributeError, while the equivalent output in the
current shape (same text, score, polygon, ordinal page) yields one
RawLine; the two runs are not identical, so the adapter does not
support Contract A. -/
theorem C2_counterexample :
    processPrediction initState predA2 = Except.error attrErrMsg ∧
    (processPrediction initState predA2).map LoopState.results ≠
      (processPrediction initState predB2).map LoopState.results := by
  refine ⟨rfl, ?_⟩
  intro h
  rw [show (processPrediction initState predA2).map LoopState.results =
        Except.error attrErrMsg from rfl,
      show (processPrediction initState predB2).map LoopState.results =
        Except.ok [⟨['h', 'i'], 1, polyC2, 1⟩] from rfl] at h
  exact Except.noConfusion h

theorem enumMap_getElem_opt {α β : Type} (f : Nat → α → β) :
    ∀ (l : List α) (n i : Nat), (enumMap f n l)[i]? = (l[i]?).map (f (n + i)) := by
  intro l
  induction l with
  | nil => intro n i; simp [enumMap]
  | cons a as ih =>
    intro n i
    cases i with
    | zero => simp [enumMap]
    | succ k =>
      simp only [enumMap, List.getElem?_cons_succ]
      rw [ih (n + 1) k]
      have hnk : n + 1 + k = n + (k + 1) := by omega
      rw [hnk]

/-- Claim C8: for every line index i that has a recognized text, the
emitted RawLine at i exists (the indexing is total) and carries
rec_scores[i] defaulted to 0.0 when the scores sequence has no element
at i, and dt_polys[i] defaulted to the empty polygon when the polygon
sequence has no element at i. -/
theorem C8_missing_score_poly_defaults (r : ResDict) (p : Int) (i : Nat) (t : Text)
    (h : (recTextsOf r)[i]? = some t) :
    (mkLines p r)[i]? = some ⟨t, (recScoresOf r).getD i 0, (dtPolysOf r).getD i [], p⟩ ∧
    ((recScoresOf r).length ≤ i → (recScoresOf r).getD i 0 = 0) ∧
    ((dtPolysOf r).length ≤ i → (dtPolysOf r).getD i [] = []) := by
  refine ⟨?_, fun hs => List.getD_eq_default _ _ hs, fun hp => List.getD_eq_default _ _ hp⟩
  rw [mkLines, enumMap_getElem_opt _ _ 0 i, h]
  simp

/-- Claim C8, witness: a record with one text, no scores and no polygon
sequence yields at index 0 a line with confidence 0 and empty box. -/
theorem C8_missing_score_poly_defaults_witness :
    (mkLines 7 rdC8)[0]? = some ⟨['z'], (recScoresOf rdC8).getD 0 0, (dtPolysOf rdC8).getD 0 [], 7⟩ ∧
    ((recScoresOf rdC8).length ≤ 0 → (recScoresOf rdC8).getD 0 0 = 0) ∧
    ((dtPolysOf rdC8).length ≤ 0 → (dtPolysOf rdC8).getD 0 [] = []) :=
  C8_missing_score_poly_defaults rdC8 7 0 ['z'] rfl

theorem pageNumAt_eq_getD (k : Nat) (r : ResDict) :
    pageNumAt k r = r.page_index.getD (k : Int) + 1 := by
  cases h : r.page_index <;> simp [pageNumAt, h]

theorem mkLines_map_page (p : Int) (r : ResDict) :
    (mkLines p r).map RawLine.page = List.replicate (recTextsOf r).length p := by
  rw [mkLines]
  suffices h : ∀ (n : Nat) (ts : List Text),
      (enumMap (fun i t =>
        (⟨t, (recScoresOf r).getD i 0, (dtPolysOf r).getD i [], p⟩ : RawLine)) n ts).map
          RawLine.page = List.replicate ts.length p from h 0 (recTextsOf r)
  intro n ts
  induction ts generalizing n with
  | nil => rfl
  | cons a as ih =>
    simp only [enumMap, List.map_cons, ih, List.replicate_succ]
    rfl

theorem emitAll_pages_map : ∀ (rs : List ResDict) (k : Nat),
    ((emitAll k rs).2.2).map PageSummary.page_number = pageNums k rs := by
  intro rs
  induction rs with
  | nil => intro k; rfl
  | cons r rest ih =>
    intro k
    simp [emitAll, pageNums, mkSummary, pageNumAt_eq_getD, ih (k + 1)]

theorem emitAll_results_map : ∀ (rs : List ResDict) (k : Nat),
    ((emitAll k rs).2.1).map RawLine.page = pageFlat k rs := by
  intro rs
  induction rs with
  | nil => intro k; rfl
  | cons r rest ih =>
    intro k
    simp [emitAll, pageFlat, List.map_append, mkLines_map_page,
      pageNumAt_eq_getD, ih (k + 1)]

theorem emitAll_pages_len : ∀ (rs : List ResDict) (k : Nat),
    ((emitAll k rs).2.2).length = rs.length := by
  intro rs
  induction rs with
  | nil => intro k; rfl
  | cons r rest ih => intro k; simp [emitAll, ih (k + 1)]

/-- Claim C7: on every successful run of the result loop, the page
number assigned to each page summary -- and, line by line, to the
RawLine records -- equals the declared page index plus 1 when the
page-result supplies one, and the ordinal position of the page-result
in the prediction sequence plus 1 otherwise (pageNums and pageFlat
state exactly this rule). -/
theorem C7_page_numbering (pred : List EngineItem) (rs : List ResDict) (st : LoopState)
    (h1 : objResAll pred = some rs)
    (h2 : processPrediction initState pred = Except.ok st) :
    st.pages.map PageSummary.page_number = pageNums 0 rs ∧
    st.results.map RawLine.page = pageFlat 0 rs := by
  obtain ⟨rs2, hrs2, hst⟩ := processPrediction_ok_shape pred initState st h2
  rw [h1] at hrs2
  injection hrs2 with hrs2
  subst hrs2
  rw [hst]
  constructor
  · simpa [initState] using emitAll_pages_map rs 0
  · simpa [initState] using emitAll_results_map rs 0

/-- Claim C7, witness: a prediction whose first page-result declares
index 4 and whose second declares none yields page numbers 5 and 2. -/
theorem C7_page_numbering_witness :
    stC7.pages.map PageSummary.page_number = pageNums 0 rsC7 ∧
    stC7.results.map RawLine.page = pageFlat 0 rsC7 :=
  C7_page_numbering predC7 rsC7 stC7 rfl rfl

theorem objResAll_mem : ∀ (pred : List EngineItem) (rs : List ResDict),
    objResAll pred = some rs → ∀ r ∈ rs,
      ∃ j : ItemJson, EngineItem.obj j ∈ pred ∧ j.getRes = r := by
  intro pred
  induction pred with
  | nil =>
    intro rs h r hr
    injection h with h
    subst h
    simp at hr
  | cons it rest ih =>
    intro rs h r hr
    cases it with
    | legacy es => simp [objResAll] at h
    | obj j =>
      simp only [objResAll] at h
      rcases Option.map_eq_some'.mp h with ⟨rs', hrs', hcons⟩
      subst hcons
      rcases List.mem_cons.mp hr with heq | hmem
      · exact ⟨j, List.mem_cons_self _ _, heq.symm⟩
      · obtain ⟨j2, hj2, hj2r⟩ := ih rs' hrs' r hmem
        exact ⟨j2, List.mem_cons_of_mem _ hj2, hj2r⟩

theorem emitAll_pages_noIdx : ∀ (rs : List ResDict) (k : Nat),
    (∀ r ∈ rs, r.page_index = none) →
    ((emitAll k rs).2.2).map PageSummary.page_number =
      (List.range rs.length).map (fun i => ((k + i : Nat) : Int) + 1) := by
  intro rs
  induction rs with
  | nil => intro k _; rfl
  | cons r rest ih =>
    intro k h
    have hr : r.page_index = none := h r (List.mem_cons_self r rest)
    have htail := ih (k + 1) (fun x hx => h x (List.mem_cons_of_mem r hx))
    simp only [emitAll, List.map_cons, List.length_cons, List.range_succ_eq_map,
      List.map_map]
    rw [htail]
    congr 1
    · simp [mkSummary, pageNumAt, hr]
    · apply List.map_congr_left
      intro a _
      simp only [Function.comp]
      congr 2
      omega

/-- Claim C4, amended: the page_number values of a response are
contiguous integers starting at 1 in emission order whenever no
page-result of the prediction declares a page index (then each page
gets ordinal position + 1); a declared index instead yields declared
index + 1, which breaks contiguity (see the counterexample). -/
theorem C4_amended_contiguous (eng : Engine) (decode : Bytes → Except PyErr Img)
    (req : Request) (fs : FS) (resp : OcrResponse) (fs' : FS)
    (h : perform_ocr (some eng) decode req fs = (Except.ok resp, fs'))
    (hidx : ∀ inp pred, eng.predict inp = Except.ok pred →
      ∀ it ∈ pred, itemPageIndex it = none) :
    contiguousFrom1 resp := by
  obtain ⟨inp, pred, rs, hpred, hrs, hresp⟩ :=
    perform_ocr_ok_shape eng decode req fs resp fs' h
  have hnone : ∀ r ∈ rs, r.page_index = none := by
    intro r hr
    obtain ⟨j, hj, hjr⟩ := objResAll_mem pred rs hrs r hr
    have hx := hidx inp pred hpred (EngineItem.obj j) hj
    rw [itemPageIndex, hjr] at hx
    exact hx
  subst hresp
  unfold contiguousFrom1 respOf
  rw [emitAll_pages_noIdx rs 0 hnone]
  simp only [emitAll_pages_len]
  apply List.map_congr_left
  intro a _
  simp

/-- Claim C4, counterexample: a prediction with a single page-result
declaring page index 1 yields the single page number 2, so the
page_number values do not start at 1. -/
theorem C4_counterexample :
    (perform_ocr (some engC4) decNever reqPdfC []).1 = Except.ok respC4 ∧
    ¬ contiguousFrom1 respC4 := ⟨rfl, by decide⟩

/-- Claim C4, witness: a two-page prediction with no declared indices
yields page numbers 1, 2. -/
theorem C4_amended_contiguous_witness : contiguousFrom1 respW := by
  refine C4_amended_contiguous engW decNever reqPdfC [] respW [] rfl ?_
  intro inp pred h
  rw [show engW.predict inp = Except.ok predItemsW from rfl] at h
  injection h with h
  subst h
  decide

theorem mkSummary_page_number (p : Int) (r : ResDict) :
    (mkSummary p r).page_number = p := rfl

theorem mkSummary_line_count (p : Int) (r : ResDict) :
    (mkSummary p r).line_count = (recTextsOf r).length := rfl

theorem enumMap_mem {α β : Type} (f : Nat → α → β) :
    ∀ (l : List α) (n : Nat) (x : β), x ∈ enumMap f n l → ∃ i a, x = f i a := by
  intro l
  induction l with
  | nil => intro n x hx; simp [enumMap] at hx
  | cons a as ih =>
    intro n x hx
    simp only [enumMap] at hx
    rcases List.mem_cons.mp hx with h | h
    · exact ⟨n, a, h⟩
    · exact ih (n + 1) x h

theorem mem_mkLines_page (p : Int) (r : ResDict) :
    ∀ x ∈ mkLines p r, x.page = p := by
  intro x hx
  rw [mkLines] at hx
  obtain ⟨i, a, rfl⟩ := enumMap_mem _ _ _ _ hx
  rfl

theorem mem_emitAll_results_page : ∀ (rs : List ResDict) (k : Nat) (x : RawLine),
    x ∈ (emitAll k rs).2.1 →
    x.page ∈ ((emitAll k rs).2.2).map PageSummary.page_number := by
  intro rs
  induction rs with
  | nil => intro k x hx; simp [emitAll] at hx
  | cons r rest ih =>
    intro k x hx
    simp only [emitAll] at hx ⊢
    rcases List.mem_append.mp hx with h | h
    · simp only [List.map_cons]
      exact List.mem_cons.mpr (Or.inl (mem_mkLines_page _ _ x h))
    · simp only [List.map_cons]
      exact List.mem_cons_of_mem _ (ih (k + 1) x h)

theorem mkLines_length (p : Int) (r : ResDict) :
    (mkLines p r).length = (recTextsOf r).length := by
  have h := congrArg List.length (mkLines_map_page p r)
  simpa using h

theorem c3_core : ∀ (rs : List ResDict) (k : Nat),
    (((emitAll k rs).2.2).map PageSummary.page_number).Nodup →
    ∀ pg ∈ (emitAll k rs).2.2,
      ((emitAll k rs).2.1).countP (fun l => decide (l.page = pg.page_number)) =
        pg.line_count := by
  intro rs
  induction rs with
  | nil => intro k _ pg hpg; simp [emitAll] at hpg
  | cons r rest ih =>
    intro k hnd pg hpg
    simp only [emitAll, List.map_cons] at hnd hpg ⊢
    rw [List.nodup_cons] at hnd
    obtain ⟨hnotin, hndtail⟩ := hnd
    rw [List.countP_append]
    rcases List.mem_cons.mp hpg with heq | hmem
    · subst heq
      have hB : (mkLines (pageNumAt k r) r).countP
          (fun l => decide (l.page = (mkSummary (pageNumAt k r) r).page_number)) =
          (mkLines (pageNumAt k r) r).length := by
        rw [List.countP_eq_length]
        intro a ha
        simp [mem_mkLines_page _ _ a ha, mkSummary_page_number]
      have hR : ((emitAll (k + 1) rest).2.1).countP
          (fun l => decide (l.page = (mkSummary (pageNumAt k r) r).page_number)) = 0 := by
        rw [List.countP_eq_zero]
        intro a ha
        have hmem2 := mem_emitAll_results_page rest (k + 1) a ha
        simp only [mkSummary_page_number, decide_eq_true_eq]
        intro hcontra
        rw [hcontra] at hmem2
        rw [mkSummary_page_number] at hnotin
        exact hnotin hmem2
      rw [hB, hR, mkLines_length, mkSummary_line_count]
      omega
    · have hB0 : (mkLines (pageNumAt k r) r).countP
          (fun l => decide (l.page = pg.page_number)) = 0 := by
        rw [List.countP_eq_zero]
        intro a ha
        simp only [decide_eq_true_eq]
        intro hcontra
        have hpn : pageNumAt k r = pg.page_number := by
          rw [← mem_mkLines_page (pageNumAt k r) r a ha]
          exact hcontra
        apply hnotin
        rw [mkSummary_page_number, hpn]
        exact List.mem_map_of_mem PageSummary.page_number hmem
      rw [hB0, ih (k + 1) hndtail pg hmem]
      omega

/-- Claim C3, amended: in every response returned by POST /ocr whose
page_number values are pairwise distinct, each page summary line_count
equals the number of results entries whose page field equals its
page_number.  When two page-results map to the same page number (a
declared index colliding with an ordinal fallback), the count over
results exceeds the per-page line_count (see the counterexample). -/
theorem C3_amended_line_count (eng : Engine) (decode : Bytes → Except PyErr Img)
    (req : Request) (fs : FS) (resp : OcrResponse) (fs' : FS)
    (h : perform_ocr (some eng) decode req fs = (Except.ok resp, fs'))
    (hnd : (resp.pages.map PageSummary.page_number).Nodup) :
    ∀ pg ∈ resp.pages, pageLineCountAgrees resp pg := by
  obtain ⟨inp, pred, rs, hpred, hrs, hresp⟩ :=
    perform_ocr_ok_shape eng decode req fs resp fs' h
  subst hresp
  intro pg hpg
  unfold pageLineCountAgrees
  exact c3_core rs 0 hnd pg hpg

/-- Claim C3, counterexample: a prediction whose first page-result
declares index 1 (page number 2) and whose second declares none (page
number len(pages) + 1 = 2 as well) yields a response in which page 2
carries two results entries but each summary reports line_count 1. -/
theorem C3_counterexample :
    (perform_ocr (some engC3) decNever reqPdfC []).1 = Except.ok respC3 ∧
    respC3.pages[0]? = some pgC3 ∧
    ¬ pageLineCountAgrees respC3 pgC3 := ⟨rfl, rfl, by decide⟩

/-- Claim C3, witness: a two-page response with distinct page numbers
satisfies the line-count property at its first page. -/
theorem C3_amended_line_count_witness : pageLineCountAgrees respW pgW :=
  C3_amended_line_count engW decNever reqPdfC [] respW [] rfl (by decide)
    pgW (by decide)

theorem pyJoin_append (s : Text) : ∀ (a b : List Text), a ≠ [] → b ≠ [] →
    pyJoin s (a ++ b) = pyJoin s a ++ s ++ pyJoin s b := by
  intro a
  induction a with
  | nil => intro b h _; exact absurd rfl h
  | cons x a' ih =>
    intro b _ hb
    cases a' with
    | nil =>
      cases b with
      | nil => exact absurd rfl hb
      | cons y b' => rfl
    | cons x2 a'' =>
      have h1 : (x2 :: a'') ≠ [] := List.cons_ne_nil _ _
      calc pyJoin s ((x :: x2 :: a'') ++ b)
          = x ++ s ++ pyJoin s ((x2 :: a'') ++ b) := rfl
        _ = x ++ s ++ (pyJoin s (x2 :: a'') ++ s ++ pyJoin s b) := by
              rw [ih b h1 hb]
        _ = pyJoin s (x :: x2 :: a'') ++ s ++ pyJoin s b := by
              show _ = (x ++ s ++ pyJoin s (x2 :: a'')) ++ s ++ pyJoin s b
              simp [List.append_assoc]

theorem emitAll_extracted_ne_nil : ∀ (rs : List ResDict) (k : Nat), rs ≠ [] →
    (∀ r ∈ rs, recTextsOf r ≠ []) → (emitAll k rs).1 ≠ [] := by
  intro rs
  cases rs with
  | nil => intro k h _; exact absurd rfl h
  | cons r rest =>
    intro k _ hall
    simp only [emitAll]
    intro hcontra
    rcases List.append_eq_nil.mp hcontra with ⟨h1, _⟩
    exact hall r (List.mem_cons_self _ _) h1

theorem emitAll_linecount_texts : ∀ (rs : List ResDict) (k : Nat),
    (∀ pg ∈ (emitAll k rs).2.2, pg.line_count ≠ 0) →
    ∀ r ∈ rs, recTextsOf r ≠ [] := by
  intro rs
  induction rs with
  | nil => intro k _ r hr; simp at hr
  | cons r0 rest ih =>
    intro k h r hr
    rcases List.mem_cons.mp hr with heq | hmem
    · subst heq
      have hh := h (mkSummary (pageNumAt k r) r) (by simp [emitAll])
      rw [mkSummary_line_count] at hh
      intro hc
      exact hh (by rw [hc]; rfl)
    · exact ih (k + 1) (fun pg hpg => h pg (by simp [emitAll, hpg])) r hmem

theorem c1_core : ∀ (rs : List ResDict) (k : Nat),
    (∀ r ∈ rs, recTextsOf r ≠ []) →
    pyJoin nlT (emitAll k rs).1 =
      pyJoin nlT (((emitAll k rs).2.2).map PageSummary.text) := by
  intro rs
  induction rs with
  | nil => intro k _; rfl
  | cons r rest ih =>
    intro k h
    have hr : recTextsOf r ≠ [] := h r (List.mem_cons_self _ _)
    have htail : ∀ x ∈ rest, recTextsOf x ≠ [] :=
      fun x hx => h x (List.mem_cons_of_mem _ hx)
    cases rest with
    | nil =>
      simp only [emitAll, List.map_cons]
      rw [List.append_nil]
      rfl
    | cons r2 rs2 =>
      have hne : (emitAll (k + 1) (r2 :: rs2)).1 ≠ [] :=
        emitAll_extracted_ne_nil (r2 :: rs2) (k + 1) (List.cons_ne_nil _ _) htail
      rw [show (emitAll k (r :: r2 :: rs2)).1 =
            recTextsOf r ++ (emitAll (k + 1) (r2 :: rs2)).1 from rfl,
          show ((emitAll k (r :: r2 :: rs2)).2.2).map PageSummary.text =
            (mkSummary (pageNumAt k r) r).text ::
              ((emitAll (k + 1) (r2 :: rs2)).2.2).map PageSummary.text from rfl]
      rw [pyJoin_append nlT (recTextsOf r) _ hr hne]
      rw [ih (k + 1) htail]
      rfl

/-- Claim C1, amended: for every response returned by POST /ocr in
which every page has at least one line, the text field equals the page
texts joined with newline in page order.  (In general the code joins
the individual line texts, so a zero-line page contributes an empty
entry to pages but no separator to text; see the counterexample.) -/
theorem C1_amended_text_join (eng : Engine) (decode : Bytes → Except PyErr Img)
    (req : Request) (fs : FS) (resp : OcrResponse) (fs' : FS)
    (h : perform_ocr (some eng) decode req fs = (Except.ok resp, fs'))
    (hn : ∀ pg ∈ resp.pages, pg.line_count ≠ 0) :
    resp.text = pyJoin nlT (resp.pages.map PageSummary.text) := by
  obtain ⟨inp, pred, rs, hpred, hrs, hresp⟩ :=
    perform_ocr_ok_shape eng decode req fs resp fs' h
  subst hresp
  exact c1_core rs 0 (emitAll_linecount_texts rs 0 hn)

/-- Claim C1, counterexample: a prediction with one one-line page and
one zero-line page yields text "a" but page texts joined with newline
"a\n"; the claimed equality fails on this response. -/
theorem C1_counterexample :
    (perform_ocr (some engC1) decNever reqPdfC []).1 = Except.ok respC1 ∧
    respC1.text ≠ pyJoin nlT (respC1.pages.map PageSummary.text) := ⟨rfl, by decide⟩

/-- Claim C1, witness: a response with two one-line pages satisfies the
amended equality. -/
theorem C1_amended_text_join_witness :
    respW.text = pyJoin nlT (respW.pages.map PageSummary.text) :=
  C1_amended_text_join engW decNever reqPdfC [] respW [] rfl (by decide)

theorem drop_length_append {α : Type} : ∀ (a b : List α), (a ++ b).drop a.length = b := by
  intro a b
  induction a with
  | nil => rfl
  | cons x a' ih => simp [List.length_cons, ih]

/-- Claim C9: an uploaded filename whose suffix is .pdf in any letter
case (each of the three letters independently upper or lower) makes the
dispatcher take the paginated-document path: the prepared input is the
temporary file path holding the uploaded bytes, and the image decoder
is never consulted (the equation holds for every decode). -/
theorem C9_pdf_suffix_dispatch (decode : Bytes → Except PyErr Img) (c : Bytes) (fs : FS)
    (t : Text) (a b d : Char)
    (ha : a = 'p' ∨ a = 'P') (hb : b = 'd' ∨ b = 'D') (hd : d = 'f' ∨ d = 'F') :
    prepareInput decode ⟨some (t ++ ['.', a, b, d]), c⟩ fs =
      (Except.ok (PreparedInput.path (tempName (some (t ++ ['.', a, b, d])))),
       some (tempName (some (t ++ ['.', a, b, d]))),
       fsWrite fs (tempName (some (t ++ ['.', a, b, d]))) c) := by
  have hs : (t ++ ['.', a, b, d]) ≠ [] := by
    intro hx
    rcases List.append_eq_nil.mp hx with ⟨_, h2⟩
    exact absurd h2 (List.cons_ne_nil _ _)
  have hpdf : isPdfUpload (some (t ++ ['.', a, b, d])) := by
    have hpyor : pyOr (some (t ++ ['.', a, b, d])) (("unknown.pdf").toList) =
        t ++ ['.', a, b, d] := if_neg hs
    have hsuffix : List.map Char.toLower ['.', a, b, d] = ['.', 'p', 'd', 'f'] := by
      rcases ha with rfl | rfl <;> rcases hb with rfl | rfl <;>
        rcases hd with rfl | rfl <;> decide
    unfold isPdfUpload effectiveFilename pyEndsWith pyLower
    rw [hpyor, List.map_append, hsuffix]
    rw [show (".pdf").toList = ['.', 'p', 'd', 'f'] from rfl]
    have hlen2 : (List.map Char.toLower t ++ ['.', 'p', 'd', 'f']).length -
        (['.', 'p', 'd', 'f'] : Text).length = (List.map Char.toLower t).length := by
      simp
    rw [hlen2]
    exact drop_length_append _ _
  unfold prepareInput
  rw [if_pos hpdf]

/-- Claim C9, witness: the mixed-case filename a.PdF takes the
paginated-document path. -/
theorem C9_pdf_suffix_dispatch_witness :
    prepareInput decNever ⟨some (['a'] ++ ['.', 'P', 'd', 'F']), []⟩ [] =
      (Except.ok (PreparedInput.path (tempName (some (['a'] ++ ['.', 'P', 'd', 'F'])))),
       some (tempName (some (['a'] ++ ['.', 'P', 'd', 'F']))),
       fsWrite [] (tempName (some (['a'] ++ ['.', 'P', 'd', 'F']))) []) :=
  C9_pdf_suffix_dispatch decNever [] [] ['a'] 'P' 'd' 'F'
    (Or.inr rfl) (Or.inl rfl) (Or.inr rfl)

/-- Claim C10: an upload with no declared filename is classified as a
paginated document: the effective name is unknown.pdf, the bytes are
written to the temporary file (named temp_None, since the f-string
formats the original None), the prepared input is that file path, and
the whole request outcome is independent of the image decoder. -/
theorem C10_missing_filename_pdf_path (decode dec2 : Bytes → Except PyErr Img)
    (eng : Engine) (c : Bytes) (fs : FS) :
    effectiveFilename none = ("unknown.pdf").toList ∧
    prepareInput decode ⟨none, c⟩ fs =
      (Except.ok (PreparedInput.path (("temp_None").toList)),
       some (("temp_None").toList),
       fsWrite fs (("temp_None").toList) c) ∧
    perform_ocr (some eng) decode ⟨none, c⟩ fs =
      perform_ocr (some eng) dec2 ⟨none, c⟩ fs :=
  ⟨rfl, rfl, rfl⟩
